import Mathlib

/-!
Shallow embedding of the staging-to-remote synchronization engine of
NitinBot001/images-uploads (src/app.py, GitLab variant) together with the
upload-side helpers (`allowed_file`, the naming allocator inside
`resize_and_save_image`) and the batch-upload endpoint logic shared by
src/app.py and src/app/index.py.

Modelling conventions:
* The remote GitLab REST API is an environment: for each staged asset the
  environment fixes the HTTP status codes the probes and writes would
  return (`AssetEnv`), plus the remote content bytes (which the engine
  never reads — this lets "content equality is not checked" be a theorem).
* `requests` calls that raise (network exceptions) abort a whole cycle via
  the outer `try/except` of `push_images_to_gitlab`; the claims under study
  concern the status-code paths, so the environment speaks statuses.
* Each per-asset step records the REST calls it performs (`ApiCall`), so
  the retry structure (how many writes, whether the existence check is
  re-issued, where the 1-second sleeps fall) is visible in the trace.
-/

/-- The REST calls the engine issues per asset, plus the fixed backoff
sleep (`time.sleep(1)`) between failed write attempts. -/
inductive ApiCall where
  | existCheck   -- GET  /files/<path>?ref=branch   (pre-write existence probe)
  | putUpdate    -- PUT  /files/<path>              (update path)
  | postCreate   -- POST /files/<path>              (create path)
  | verifyCheck  -- GET  /files/<path>?ref=branch   (post-write verification)
  | sleep        -- time.sleep(1)
  deriving DecidableEq, Repr

/-- Environment for one staged asset: what the local PIL verification and
the remote API would answer.  `writeStatus i` is the HTTP status of the
i-th write attempt (PUT or POST, 0-indexed); `remoteContent` is the byte
content stored remotely, which `push_images_to_gitlab` never reads. -/
structure AssetEnv where
  localValid : Bool        -- PIL Image.verify() on the staged file succeeds
  existStatus : Nat        -- status of the single pre-write existence GET
  writeStatus : Nat → Nat  -- status of write attempt i (i = 0, 1, 2)
  verifyStatus : Nat       -- status of the post-write verification GET
  remoteContent : String   -- remote bytes; never inspected by the engine

/-- `status_code in (200, 201)` — the success test used for writes. -/
def writeOk (s : Nat) : Bool := s == 200 || s == 201

/-- The branch taken inside the retry loop: `if response.status_code == 200`
(the status of the single pre-check) chooses PUT (update), anything else
chooses POST (create). -/
def writeCall (existStatus : Nat) : ApiCall :=
  if existStatus == 200 then ApiCall.putUpdate else ApiCall.postCreate

/-- The `for attempt in range(3)` retry loop of `push_images_to_gitlab`:
each attempt issues one write chosen by the (never refreshed) pre-check
status; success breaks out, failure sleeps 1s and retries.  First argument
is the remaining attempt budget, second the index of the next attempt.
Returns (`api_success`, trace of calls). -/
def retryWrites (e : AssetEnv) : Nat → Nat → Bool × List ApiCall
  | 0, _ => (false, [])
  | n + 1, i =>
    let c := writeCall e.existStatus
    if writeOk (e.writeStatus i) then
      (true, [c])
    else
      let r := retryWrites e n (i + 1)
      (r.1, c :: ApiCall.sleep :: r.2)

/-- Per-asset body of the loop in `push_images_to_gitlab` (src/app.py
lines 163–237): PIL re-verification, the single existence GET, the
3-attempt write loop, and the post-write verification GET.  Returns
(asset succeeded, trace of REST calls/sleeps). -/
def processAsset (e : AssetEnv) : Bool × List ApiCall :=
  if !e.localValid then
    (false, [])
  else
    let w := retryWrites e 3 0
    let calls := ApiCall.existCheck :: w.2
    if w.1 then
      (e.verifyStatus == 200, calls ++ [ApiCall.verifyCheck])
    else
      (false, calls)

/-- The per-asset loop over all staged files, accumulating
`success_count`, `failed_files` (in iteration order) and the combined
trace tagged by file name. -/
def processAssets (env : String → AssetEnv) :
    List String → Nat × List String × List (String × ApiCall)
  | [] => (0, [], [])
  | f :: fs =>
    let r := processAsset (env f)
    let rest := processAssets env fs
    ( (if r.1 then rest.1 + 1 else rest.1),
      (if r.1 then rest.2.1 else f :: rest.2.1),
      r.2.map (fun c => (f, c)) ++ rest.2.2 )

/-- Environment of one synchronization cycle: the staging directory state
and, per staged file, the remote's answers.  `ensureDirOk` is the boolean
result of `ensure_images_directory` (true: the `images/` tree listing
returned 200, or the `.gitkeep` POST returned 200/201). -/
structure CycleEnv where
  dirExists : Bool          -- os.path.exists(UPLOAD_FOLDER)
  files : List String       -- the staged file listing
  ensureDirOk : Bool        -- result of ensure_images_directory(branch)
  assetEnv : String → AssetEnv

/-- Result of one `push_images_to_gitlab` cycle.  `purged` records whether
`shutil.rmtree(UPLOAD_FOLDER)` ran (the only local deletion in the
function — there is no per-file deletion). -/
structure CycleResult where
  success : Bool
  message : String
  purged : Bool
  succeededCount : Nat
  failedFiles : List String
  calls : List (String × ApiCall)
  deriving Repr

/-- `push_images_to_gitlab` (src/app.py lines 135–250): guard on the
staging directory, guard on the empty listing, bootstrap of the remote
`images/` prefix, per-asset loop, and the final all-or-nothing purge
(`success_count == len(image_files)`). -/
def push_images_to_gitlab (env : CycleEnv) : CycleResult :=
  if !env.dirExists then
    ⟨false, "No images directory found.", false, 0, [], []⟩
  else if env.files.isEmpty then
    ⟨false, "No images to push.", false, 0, [], []⟩
  else if !env.ensureDirOk then
    ⟨false, "Failed to ensure images/ directory exists.", false, 0, [], []⟩
  else
    let r := processAssets env.assetEnv env.files
    if r.1 == env.files.length then
      ⟨true, "Successfully pushed " ++ toString r.1 ++ " images to GitLab.",
        true, r.1, r.2.1, r.2.2⟩
    else
      ⟨false,
        "Pushed " ++ toString r.1 ++ " images, failed " ++
          toString r.2.1.length ++ ": " ++ toString r.2.1,
        false, r.1, r.2.1, r.2.2⟩

/-- The `/api/trigger-push` endpoint (src/app.py lines 361–374): maps the
cycle outcome to (HTTP status code, JSON `status` field, message). -/
def trigger_push (env : CycleEnv) : Nat × String × String :=
  let r := push_images_to_gitlab env
  if r.success then (200, "success", r.message) else (400, "error", r.message)

/-! ## Batch accounting -/

/-- Every staged file is accounted for exactly once: the success count
plus the number of failed files equals the number of staged files. -/
theorem processAssets_count_add_failed (env : String → AssetEnv) (fs : List String) :
    (processAssets env fs).1 + (processAssets env fs).2.1.length = fs.length := by
  induction fs with
  | nil => simp [processAssets]
  | cons f fs ih =>
    simp only [processAssets]
    by_cases h : (processAsset (env f)).1 <;> simp [h] <;> omega

/-- A file whose per-asset processing fails ends up in `failed_files`. -/
theorem mem_failed_of_processAsset_false (env : String → AssetEnv)
    (fs : List String) (f : String) (hf : f ∈ fs)
    (hfail : (processAsset (env f)).1 = false) :
    f ∈ (processAssets env fs).2.1 := by
  induction fs with
  | nil => cases hf
  | cons g gs ih =>
    simp only [processAssets]
    rcases List.mem_cons.mp hf with rfl | hmem
    · simp [hfail]
    · by_cases h : (processAsset (env g)).1 <;> simp [h, ih hmem]

/-! ## Claims about the synchronization cycle -/

/-- C1: all-or-nothing purge.  Over a non-empty batch that passes the
directory guards, `push_images_to_gitlab` purges the Staging Store
(`shutil.rmtree`) iff `failed_files` is empty; a single deletion of the
whole folder is the only local deletion the cycle performs, so when any
asset failed nothing at all is deleted locally. -/
theorem purge_iff_no_failures (env : CycleEnv)
    (hdir : env.dirExists = true) (hne : env.files ≠ [])
    (hens : env.ensureDirOk = true) :
    ((push_images_to_gitlab env).purged = true ↔
      (push_images_to_gitlab env).failedFiles = []) := by
  have hcount := processAssets_count_add_failed env.assetEnv env.files
  have hempty : env.files.isEmpty = false := by
    cases h : env.files with
    | nil => exact absurd h hne
    | cons a l => rfl
  cases hb : ((processAssets env.assetEnv env.files).1 == env.files.length) with
  | true =>
    have hlen : (processAssets env.assetEnv env.files).1 = env.files.length := by
      simpa using hb
    have hnil : (processAssets env.assetEnv env.files).2.1 = [] := by
      have : (processAssets env.assetEnv env.files).2.1.length = 0 := by omega
      exact List.length_eq_zero.mp this
    simp [push_images_to_gitlab, hdir, hens, hempty, hb, hnil]
  | false =>
    have hlen : (processAssets env.assetEnv env.files).1 ≠ env.files.length := by
      simpa using hb
    have hnil : (processAssets env.assetEnv env.files).2.1 ≠ [] := by
      intro hc
      rw [hc] at hcount
      simp at hcount
      exact hlen hcount
    simp [push_images_to_gitlab, hdir, hens, hempty, hb, hnil]

/-- A remote environment in which every asset syncs cleanly. -/
def cleanAsset : AssetEnv := ⟨true, 404, fun _ => 201, 200, ""⟩

/-- A one-file cycle environment where everything succeeds. -/
def cleanCycleEnv : CycleEnv := ⟨true, ["05_03_24_10_15_42_7391.jpg"], true, fun _ => cleanAsset⟩

/-- Witness for C1 at a concrete one-file environment. -/
theorem purge_iff_no_failures_witness :
    (cleanCycleEnv.dirExists = true ∧ cleanCycleEnv.files ≠ [] ∧
      cleanCycleEnv.ensureDirOk = true) ∧
    ((push_images_to_gitlab cleanCycleEnv).purged = true ↔
      (push_images_to_gitlab cleanCycleEnv).failedFiles = []) :=
  ⟨⟨rfl, by decide, rfl⟩,
    purge_iff_no_failures cleanCycleEnv rfl (by decide) rfl⟩

/-- An asset whose pre-write existence probe answers HTTP 500 (a server
failure, not a 404), and whose writes and verification would succeed. -/
def transportFailAsset : AssetEnv := ⟨true, 500, fun _ => 201, 200, ""⟩

/-- C2 (failing-input evaluation): when the existence probe returns 500,
the engine routes the asset straight to the create path (POST) exactly as
it would for a 404, reports the asset as succeeded, and surfaces no error
distinct from absence: the trace shows the probe followed immediately by
`postCreate`. -/
theorem probe_500_routed_to_create :
    writeCall transportFailAsset.existStatus = ApiCall.postCreate ∧
    processAsset transportFailAsset =
      (true, [ApiCall.existCheck, ApiCall.postCreate, ApiCall.verifyCheck]) := by
  constructor <;> decide

/-- An asset whose pre-check sees the object present (200) but whose
first update attempt fails (e.g. the remote changed or vanished since the
check: PUT answers 400), with the second attempt succeeding. -/
def staleUpdateAsset : AssetEnv := ⟨true, 200, fun i => if i = 0 then 400 else 200, 200, ""⟩

/-- C3 (failing-input evaluation): after the failed first update the
engine retries the write using the original pre-check status — the trace
contains exactly one `existCheck`, issued before the first attempt, and
the second attempt is again a PUT; no re-check is issued between write
attempts. -/
theorem stale_update_retries_without_recheck :
    processAsset staleUpdateAsset =
      (true, [ApiCall.existCheck, ApiCall.putUpdate, ApiCall.sleep,
        ApiCall.putUpdate, ApiCall.verifyCheck]) ∧
    ((processAsset staleUpdateAsset).2.count ApiCall.existCheck = 1) := by
  constructor <;> decide

/-! ## Per-asset verification and retry bounds -/

/-- Number of remote write calls (PUT update or POST create) in a trace. -/
def writeCount (l : List ApiCall) : Nat :=
  (l.filter (fun c => c == ApiCall.putUpdate || c == ApiCall.postCreate)).length

theorem writeCount_cons_sleep (l : List ApiCall) :
    writeCount (ApiCall.sleep :: l) = writeCount l := by
  simp [writeCount, List.filter_cons]

theorem writeCount_cons_le (c : ApiCall) (l : List ApiCall) :
    writeCount (c :: l) ≤ writeCount l + 1 := by
  simp only [writeCount, List.filter_cons]
  by_cases h : (c == ApiCall.putUpdate || c == ApiCall.postCreate) = true <;> simp [h]

theorem writeCount_retryWrites_le (e : AssetEnv) (n i : Nat) :
    writeCount (retryWrites e n i).2 ≤ n := by
  induction n generalizing i with
  | zero => simp [retryWrites, writeCount]
  | succ n ih =>
    simp only [retryWrites]
    by_cases h : writeOk (e.writeStatus i)
    · simp only [h, if_true]
      have h1 := writeCount_cons_le (writeCall e.existStatus) []
      have h2 : writeCount ([] : List ApiCall) = 0 := by simp [writeCount]
      omega
    · simp only [h, Bool.false_eq_true, if_false]
      have h1 := writeCount_cons_le (writeCall e.existStatus)
        (ApiCall.sleep :: (retryWrites e n (i + 1)).2)
      rw [writeCount_cons_sleep] at h1
      have h2 := ih (i + 1)
      omega

theorem retryWrites_exhausted (e : AssetEnv)
    (hex : ∀ i, i < 3 → writeOk (e.writeStatus i) = false) :
    retryWrites e 3 0 =
      (false, [writeCall e.existStatus, ApiCall.sleep, writeCall e.existStatus,
        ApiCall.sleep, writeCall e.existStatus, ApiCall.sleep]) := by
  have h0 := hex 0 (by omega)
  have h1 := hex 1 (by omega)
  have h2 := hex 2 (by omega)
  simp [retryWrites, h0, h1, h2]

/-- With all write attempts failing, the asset is not counted a success. -/
theorem processAsset_false_of_exhausted (e : AssetEnv)
    (hex : ∀ i, i < 3 → writeOk (e.writeStatus i) = false) :
    (processAsset e).1 = false := by
  by_cases hl : e.localValid
  · simp [processAsset, hl, retryWrites_exhausted e hex]
  · simp [processAsset, Bool.not_eq_true] at hl ⊢
    simp [hl]

/-- A failed asset forces the whole-batch purge to be skipped. -/
theorem purged_false_of_mem_failed (env : CycleEnv) (f : String)
    (hf : f ∈ env.files) (hfail : (processAsset (env.assetEnv f)).1 = false) :
    (push_images_to_gitlab env).purged = false := by
  have hempty : env.files.isEmpty = false := by
    cases h : env.files with
    | nil => rw [h] at hf; cases hf
    | cons a l => rfl
  by_cases hdir : env.dirExists
  · by_cases hens : env.ensureDirOk
    · have hmem := mem_failed_of_processAsset_false env.assetEnv env.files f hf hfail
      have hcount := processAssets_count_add_failed env.assetEnv env.files
      have hpos : 0 < (processAssets env.assetEnv env.files).2.1.length :=
        List.length_pos.mpr (List.ne_nil_of_mem hmem)
      have hb : ((processAssets env.assetEnv env.files).1 == env.files.length) = false := by
        simp only [beq_eq_false_iff_ne, ne_eq]
        omega
      simp [push_images_to_gitlab, hdir, hens, hempty, hb]
    · simp only [Bool.not_eq_true] at hens
      simp [push_images_to_gitlab, hdir, hempty, hens]
  · simp only [Bool.not_eq_true] at hdir
    simp [push_images_to_gitlab, hdir]

/-- C4: an asset whose write loop reported success is counted as
succeeded iff the post-write existence probe answers 200; otherwise it is
recorded as failed (verification mismatch) and blocks the purge.  The
verification never reads the remote content: the per-asset outcome is
invariant under arbitrary changes of `remoteContent`. -/
theorem verification_gates_success (e : AssetEnv) (hl : e.localValid = true) :
    ((processAsset e).1 = true ↔
      ((retryWrites e 3 0).1 = true ∧ e.verifyStatus = 200)) ∧
    (∀ c, processAsset { e with remoteContent := c } = processAsset e) ∧
    (∀ env : CycleEnv, ∀ f ∈ env.files, env.assetEnv f = e →
      e.verifyStatus ≠ 200 → (push_images_to_gitlab env).purged = false) := by
  refine ⟨?_, ?_, ?_⟩
  · by_cases hw : (retryWrites e 3 0).1 <;> simp [processAsset, hl, hw]
  · intro c; cases e; rfl
  · intro env f hf he hv
    refine purged_false_of_mem_failed env f hf ?_
    rw [he]
    by_cases hw : (retryWrites e 3 0).1 <;> simp [processAsset, hl, hw, hv]

/-- Witness for C4 at a concrete asset environment. -/
theorem verification_gates_success_witness :
    cleanAsset.localValid = true ∧
    ((processAsset cleanAsset).1 = true ↔
      ((retryWrites cleanAsset 3 0).1 = true ∧ cleanAsset.verifyStatus = 200)) :=
  ⟨rfl, (verification_gates_success cleanAsset rfl).1⟩

theorem writeCount_cons_existCheck (l : List ApiCall) :
    writeCount (ApiCall.existCheck :: l) = writeCount l := by
  simp [writeCount, List.filter_cons]

theorem writeCount_append_verify (l : List ApiCall) :
    writeCount (l ++ [ApiCall.verifyCheck]) = writeCount l := by
  simp [writeCount, List.filter_append, List.filter_cons]

/-- C5: bounded per-asset retries.  (i) every asset triggers at most 3
remote writes per cycle; (ii) when all three attempts fail the trace is
exactly probe, then three writes interleaved with the fixed 1-second
sleeps; (iii) every staged file is still accounted for (success count +
failed count = total, so one exhausted asset never aborts the batch); and
(iv) an asset whose write budget is exhausted merely joins `failed_files`. -/
theorem retries_bounded_batch_continues :
    (∀ e : AssetEnv, writeCount (processAsset e).2 ≤ 3) ∧
    (∀ e : AssetEnv, e.localValid = true →
      (∀ i, i < 3 → writeOk (e.writeStatus i) = false) →
      (processAsset e).2 = [ApiCall.existCheck,
        writeCall e.existStatus, ApiCall.sleep,
        writeCall e.existStatus, ApiCall.sleep,
        writeCall e.existStatus, ApiCall.sleep]) ∧
    (∀ (env : String → AssetEnv) (fs : List String),
      (processAssets env fs).1 + (processAssets env fs).2.1.length = fs.length) ∧
    (∀ (env : String → AssetEnv) (fs : List String) (f : String), f ∈ fs →
      (∀ i, i < 3 → writeOk ((env f).writeStatus i) = false) →
      f ∈ (processAssets env fs).2.1) := by
  refine ⟨?_, ?_, processAssets_count_add_failed, ?_⟩
  · intro e
    by_cases hl : e.localValid
    · have hb := writeCount_retryWrites_le e 3 0
      by_cases hw : (retryWrites e 3 0).1 <;>
        simpa [processAsset, hl, hw, writeCount_cons_existCheck,
          writeCount_append_verify] using hb
    · simp only [Bool.not_eq_true] at hl
      simp [processAsset, hl, writeCount]
  · intro e hl hex
    simp [processAsset, hl, retryWrites_exhausted e hex]
  · intro env fs f hf hex
    exact mem_failed_of_processAsset_false env fs f hf
      (processAsset_false_of_exhausted (env f) hex)

/-- An asset whose three write attempts all answer 500. -/
def alwaysFailAsset : AssetEnv := ⟨true, 404, fun _ => 500, 200, ""⟩

/-- Witness for C5 at a concrete always-failing asset. -/
theorem retries_bounded_batch_continues_witness :
    alwaysFailAsset.localValid = true ∧
    (∀ i, i < 3 → writeOk (alwaysFailAsset.writeStatus i) = false) ∧
    (processAsset alwaysFailAsset).2 = [ApiCall.existCheck,
      writeCall alwaysFailAsset.existStatus, ApiCall.sleep,
      writeCall alwaysFailAsset.existStatus, ApiCall.sleep,
      writeCall alwaysFailAsset.existStatus, ApiCall.sleep] ∧
    "x.png" ∈ ["x.png"] ∧
    "x.png" ∈ (processAssets (fun _ => alwaysFailAsset) ["x.png"]).2.1 :=
  ⟨rfl, by decide,
    retries_bounded_batch_continues.2.1 alwaysFailAsset rfl (by decide),
    by simp,
    retries_bounded_batch_continues.2.2.2 (fun _ => alwaysFailAsset)
      ["x.png"] "x.png" (by simp) (by decide)⟩

/-- C6: if `ensure_images_directory` fails, the whole cycle aborts before
any per-asset work: the result is a failure, no REST call is recorded for
any asset, and the Staging Store is not purged. -/
theorem bootstrap_failure_aborts_cycle (env : CycleEnv)
    (hdir : env.dirExists = true) (hne : env.files ≠ [])
    (hens : env.ensureDirOk = false) :
    push_images_to_gitlab env =
      ⟨false, "Failed to ensure images/ directory exists.", false, 0, [], []⟩ := by
  have hempty : env.files.isEmpty = false := by
    cases h : env.files with
    | nil => exact absurd h hne
    | cons a l => rfl
  simp [push_images_to_gitlab, hdir, hempty, hens]

/-- A non-empty staging store whose remote prefix bootstrap fails. -/
def bootstrapFailEnv : CycleEnv := ⟨true, ["a.png"], false, fun _ => cleanAsset⟩

/-- Witness for C6 at a concrete environment. -/
theorem bootstrap_failure_aborts_cycle_witness :
    (bootstrapFailEnv.dirExists = true ∧ bootstrapFailEnv.files ≠ [] ∧
      bootstrapFailEnv.ensureDirOk = false) ∧
    push_images_to_gitlab bootstrapFailEnv =
      ⟨false, "Failed to ensure images/ directory exists.", false, 0, [], []⟩ :=
  ⟨⟨rfl, by decide, rfl⟩,
    bootstrap_failure_aborts_cycle bootstrapFailEnv rfl (by decide) rfl⟩

/-- An existing but empty staging store. -/
def emptyStoreEnv : CycleEnv := ⟨true, [], true, fun _ => cleanAsset⟩

/-- C7 counterexample: over zero staged files the manual trigger endpoint
responds HTTP 400 with status field "error" — the empty store IS reported
as an error to the caller, contrary to the claim. -/
theorem empty_store_trigger_is_error :
    trigger_push emptyStoreEnv = (400, "error", "No images to push.") := by
  decide

/-- C7 (amended): a cycle over zero staged files performs no REST call,
counts zero successes, never purges the Staging Store, and returns a
failure outcome which `/api/trigger-push` maps to HTTP 400 with status
"error" and message "No images to push.". -/
theorem empty_batch_no_purge (env : CycleEnv)
    (hdir : env.dirExists = true) (hfiles : env.files = []) :
    (push_images_to_gitlab env).purged = false ∧
    (push_images_to_gitlab env).succeededCount = 0 ∧
    (push_images_to_gitlab env).calls = [] ∧
    (push_images_to_gitlab env).success = false ∧
    trigger_push env = (400, "error", "No images to push.") := by
  simp [push_images_to_gitlab, trigger_push, hdir, hfiles]

/-- Witness for the amended C7 at a concrete empty environment. -/
theorem empty_batch_no_purge_witness :
    (emptyStoreEnv.dirExists = true ∧ emptyStoreEnv.files = []) ∧
    ((push_images_to_gitlab emptyStoreEnv).purged = false ∧
      (push_images_to_gitlab emptyStoreEnv).succeededCount = 0 ∧
      (push_images_to_gitlab emptyStoreEnv).calls = [] ∧
      (push_images_to_gitlab emptyStoreEnv).success = false ∧
      trigger_push emptyStoreEnv = (400, "error", "No images to push.")) :=
  ⟨⟨rfl, rfl⟩, empty_batch_no_purge emptyStoreEnv rfl rfl⟩

/-! ## Naming allocator and upload validation (src/app.py lines 33–48) -/

/-- `app.config['ALLOWED_EXTENSIONS'] = {'png', 'jpg', 'jpeg', 'gif'}`. -/
def ALLOWED_EXTENSIONS : List (List Char) :=
  [['p','n','g'], ['j','p','g'], ['j','p','e','g'], ['g','i','f']]

/-- The characters after the last '.' of a filename:
`filename.rsplit('.', 1)[1]` (meaningful when a '.' is present). -/
def afterLastDot (l : List Char) : List Char :=
  (l.reverse.takeWhile (fun c => c != '.')).reverse

/-- `allowed_file`: `'.' in filename and
filename.rsplit('.', 1)[1].lower() in ALLOWED_EXTENSIONS`.  Python
`str.lower` is modelled by `Char.toLower` (ASCII case folding; the
allow-list is pure ASCII). -/
def allowed_file (f : String) : Bool :=
  f.data.contains '.' &&
    ALLOWED_EXTENSIONS.contains ((afterLastDot f.data).map Char.toLower)

/-- Core of CPython `posixpath.splitext`, scanning the reversed filename:
the extension starts at the last '.', provided it comes after the last '/'
and the basename has at least one non-dot character before it (leading
dots of the basename never start an extension).  `acc` accumulates the
characters after the candidate dot, in original order. -/
def splitextExtRev : List Char → List Char → List Char
  | [], _ => []
  | c :: rest, acc =>
    if c == '/' then []
    else if c == '.' then
      (if (rest.takeWhile (fun x => x != '/')).any (fun x => x != '.') then c :: acc else [])
    else splitextExtRev rest (c :: acc)

/-- `os.path.splitext(filename)[1]` on POSIX. -/
def splitextExt (f : String) : List Char :=
  splitextExtRev f.data.reverse []

/-- One zero-padded two-digit `strftime` field (`%d`, `%m`, `%y`, `%H`,
`%M`, `%S`; every such datetime field is < 100). -/
def twoDigits (n : Nat) : List Char := [Nat.digitChar (n / 10 % 10), Nat.digitChar (n % 10)]

/-- `now.strftime("%d_%m_%y_%H_%M_%S")`. -/
def strftimeStamp (day mon yr hh mm ss : Nat) : List Char :=
  twoDigits day ++ '_' :: twoDigits mon ++ '_' :: twoDigits yr ++ '_' :: twoDigits hh
    ++ '_' :: twoDigits mm ++ '_' :: twoDigits ss

/-- `generate_random_code`: `''.join(random.choices(string.digits, k=4))`,
with the four random draws supplied as arguments. -/
def generate_random_code (r1 r2 r3 r4 : Nat) : List Char :=
  [Nat.digitChar (r1 % 10), Nat.digitChar (r2 % 10), Nat.digitChar (r3 % 10), Nat.digitChar (r4 % 10)]

/-- The name allocated by `resize_and_save_image`:
`f"{timestamp}_{random_code}{file_extension}"` where
`file_extension = os.path.splitext(file.filename)[1].lower()`. -/
def new_filename (stamp code : List Char) (f : String) : List Char :=
  stamp ++ '_' :: code ++ (splitextExt f).map Char.toLower

/-! ## Structure of the allocated name -/

theorem exists_last_dot_split (l : List Char) (h : '.' ∈ l) :
    ∃ s, l = l.takeWhile (fun c => c != '.') ++ '.' :: s := by
  induction l with
  | nil => cases h
  | cons c cs ih =>
    by_cases hc : c = '.'
    · subst hc
      exact ⟨cs, by simp [List.takeWhile_cons]⟩
    · have hm : '.' ∈ cs := by
        rcases List.mem_cons.mp h with h1 | h1
        · exact absurd h1.symm hc
        · exact h1
      obtain ⟨s, hs⟩ := ih hm
      refine ⟨s, ?_⟩
      have hcb : (c != '.') = true := by simp [hc]
      conv_lhs => rw [hs]
      simp [List.takeWhile_cons, hcb]

theorem splitextExtRev_append (u : List Char)
    (hu : ∀ c ∈ u, c ≠ '.' ∧ c ≠ '/') (r acc : List Char) :
    splitextExtRev (u ++ '.' :: r) acc =
      if (r.takeWhile (fun x => x != '/')).any (fun x => x != '.') then
        '.' :: (u.reverse ++ acc)
      else [] := by
  induction u generalizing acc with
  | nil => simp [splitextExtRev]
  | cons c cs ih =>
    have hc := hu c (List.mem_cons_self c cs)
    have hc1 : (c == '/') = false := by simp [hc.2]
    have hc2 : (c == '.') = false := by simp [hc.1]
    simp only [List.cons_append, splitextExtRev, hc1, hc2, Bool.false_eq_true,
      if_false, List.append_eq]
    rw [ih (fun x hx => hu x (List.mem_cons_of_mem c hx)) (c :: acc)]
    by_cases hcond : ((r.takeWhile (fun x => x != '/')).any (fun x => x != '.')) = true <;>
      simp [hcond]

theorem splitextExt_eq (f : String) (a b : List Char)
    (hdata : f.data = a ++ '.' :: b)
    (hb : ∀ c ∈ b, c ≠ '.' ∧ c ≠ '/') :
    splitextExt f =
      if (a.reverse.takeWhile (fun x => x != '/')).any (fun x => x != '.') then '.' :: b
      else [] := by
  unfold splitextExt
  rw [hdata]
  have h1 : (a ++ '.' :: b).reverse = b.reverse ++ '.' :: a.reverse := by
    simp
  rw [h1, splitextExtRev_append b.reverse (fun c hc => hb c (by simpa using hc)) a.reverse []]
  simp

theorem allowed_file_decomp (f : String) (h : allowed_file f = true) :
    ∃ a b, f.data = a ++ '.' :: b ∧ (∀ c ∈ b, c ≠ '.') ∧
      b.map Char.toLower ∈ ALLOWED_EXTENSIONS ∧ afterLastDot f.data = b := by
  unfold allowed_file at h
  obtain ⟨h1, h2⟩ := (Bool.and_eq_true _ _).mp h
  have hmem : '.' ∈ f.data := by
    simpa using h1
  have hmemr : '.' ∈ f.data.reverse := by simpa using hmem
  obtain ⟨s, hs⟩ := exists_last_dot_split f.data.reverse hmemr
  refine ⟨s.reverse, afterLastDot f.data, ?_, ?_, ?_, rfl⟩
  · have := congrArg List.reverse hs
    simpa [afterLastDot] using this
  · intro c hc
    have : c ∈ f.data.reverse.takeWhile (fun c => c != '.') := by
      simpa [afterLastDot] using hc
    have := List.mem_takeWhile_imp this
    simpa using this
  · simpa using h2

theorem allowed_cases (b : List Char) (h : b.map Char.toLower ∈ ALLOWED_EXTENSIONS) :
    b.map Char.toLower = ['p','n','g'] ∨ b.map Char.toLower = ['j','p','g'] ∨
      b.map Char.toLower = ['j','p','e','g'] ∨ b.map Char.toLower = ['g','i','f'] := by
  simpa [ALLOWED_EXTENSIONS] using h

theorem no_slash_of_allowed (b : List Char)
    (h : b.map Char.toLower ∈ ALLOWED_EXTENSIONS) : ∀ c ∈ b, c ≠ '/' := by
  intro c hc hcontra
  subst hcontra
  have hmem := List.mem_map_of_mem Char.toLower hc
  rw [show Char.toLower '/' = '/' from by decide] at hmem
  rcases allowed_cases b h with h4 | h4 | h4 | h4 <;> rw [h4] at hmem <;>
    exact absurd hmem (by decide)

theorem dot_not_mem_of_allowed (b : List Char)
    (h : b.map Char.toLower ∈ ALLOWED_EXTENSIONS) : '.' ∉ b.map Char.toLower := by
  intro hmem
  rcases allowed_cases b h with h4 | h4 | h4 | h4 <;> rw [h4] at hmem <;>
    exact absurd hmem (by decide)

theorem digitChar_ne_dot : ∀ d, d < 10 → Nat.digitChar d ≠ '.' := by decide

theorem digitChar_isDigit : ∀ d, d < 10 → (Nat.digitChar d).isDigit = true := by decide

theorem dot_not_mem_twoDigits (n : Nat) : '.' ∉ twoDigits n := by
  have h1 := digitChar_ne_dot (n / 10 % 10) (Nat.mod_lt _ (by norm_num))
  have h2 := digitChar_ne_dot (n % 10) (Nat.mod_lt _ (by norm_num))
  simp [twoDigits]
  exact ⟨fun hc => h1 hc.symm, fun hc => h2 hc.symm⟩

theorem dot_not_mem_stamp (day mon yr hh mm ss : Nat) :
    '.' ∉ strftimeStamp day mon yr hh mm ss := by
  intro h
  simp only [strftimeStamp, List.mem_append, List.mem_cons] at h
  rcases h with ((((h | h | h) | h | h) | h | h) | h | h) | h | h
  · exact dot_not_mem_twoDigits day h
  · exact absurd h (by decide)
  · exact dot_not_mem_twoDigits mon h
  · exact absurd h (by decide)
  · exact dot_not_mem_twoDigits yr h
  · exact absurd h (by decide)
  · exact dot_not_mem_twoDigits hh h
  · exact absurd h (by decide)
  · exact dot_not_mem_twoDigits mm h
  · exact absurd h (by decide)
  · exact dot_not_mem_twoDigits ss h

theorem dot_not_mem_code (r1 r2 r3 r4 : Nat) :
    '.' ∉ generate_random_code r1 r2 r3 r4 := by
  have h1 := digitChar_ne_dot (r1 % 10) (Nat.mod_lt _ (by norm_num))
  have h2 := digitChar_ne_dot (r2 % 10) (Nat.mod_lt _ (by norm_num))
  have h3 := digitChar_ne_dot (r3 % 10) (Nat.mod_lt _ (by norm_num))
  have h4 := digitChar_ne_dot (r4 % 10) (Nat.mod_lt _ (by norm_num))
  simp [generate_random_code]
  exact ⟨fun hc => h1 hc.symm, fun hc => h2 hc.symm,
    fun hc => h3 hc.symm, fun hc => h4 hc.symm⟩

theorem digit_code_isDigit (r1 r2 r3 r4 : Nat) :
    ∀ c ∈ generate_random_code r1 r2 r3 r4, c.isDigit = true := by
  intro c hc
  simp only [generate_random_code, List.mem_cons, List.not_mem_nil, or_false] at hc
  rcases hc with rfl | rfl | rfl | rfl <;>
    exact digitChar_isDigit _ (Nat.mod_lt _ (by norm_num))

/-- C8 counterexample: the filename ".jpg" is accepted by `allowed_file`
(its rsplit-extension "jpg" is in the allow-list), yet
`os.path.splitext(".jpg")` yields no extension, so the allocated local
name is the bare `<timestamp>_<code>` with no extension at all —
refuting "every accepted upload's name has exactly one extension drawn
from the allow-list". -/
theorem dotfile_name_has_no_extension :
    allowed_file ".jpg" = true ∧
    splitextExt ".jpg" = [] ∧
    new_filename (strftimeStamp 5 3 24 10 15 42) (generate_random_code 7 3 9 1) ".jpg" =
      "05_03_24_10_15_42_7391".data ∧
    (new_filename (strftimeStamp 5 3 24 10 15 42)
      (generate_random_code 7 3 9 1) ".jpg").count '.' = 0 :=
  ⟨by decide, by decide, by decide, by decide⟩

/-- C8 (amended): for every upload accepted by `allowed_file` whose
filename `os.path.splitext` assigns a non-empty extension (equivalently:
some non-dot character precedes the final dot within the last path
component), the allocated name is exactly
`<dd_mm_yy_HH_MM_SS>_<4-digit-code>.<ext>`: one single dot, a lower-cased
extension from the allow-list, and a 4-character all-digit code.
Filenames such as ".jpg" are accepted but allocated an extensionless
name (see the counterexample). -/
theorem allocated_name_single_allowed_extension
    (day mon yr hh mm ss r1 r2 r3 r4 : Nat) (f : String)
    (hallow : allowed_file f = true) (hext : splitextExt f ≠ []) :
    ∃ ext, ext ∈ ALLOWED_EXTENSIONS ∧
      new_filename (strftimeStamp day mon yr hh mm ss) (generate_random_code r1 r2 r3 r4) f =
        strftimeStamp day mon yr hh mm ss ++ '_' ::
          (generate_random_code r1 r2 r3 r4 ++ '.' :: ext) ∧
      (new_filename (strftimeStamp day mon yr hh mm ss)
        (generate_random_code r1 r2 r3 r4) f).count '.' = 1 ∧
      (generate_random_code r1 r2 r3 r4).length = 4 ∧
      (∀ c ∈ generate_random_code r1 r2 r3 r4, c.isDigit = true) := by
  obtain ⟨a, b, hdata, hbdot, hmem, _⟩ := allowed_file_decomp f hallow
  have hslash := no_slash_of_allowed b hmem
  have hb : ∀ c ∈ b, c ≠ '.' ∧ c ≠ '/' := fun c hc => ⟨hbdot c hc, hslash c hc⟩
  have hse := splitextExt_eq f a b hdata hb
  have hcond : ((a.reverse.takeWhile (fun x => x != '/')).any (fun x => x != '.')) = true := by
    by_contra hc
    rw [hse] at hext
    simp only [Bool.not_eq_true] at hc
    simp [hc] at hext
  rw [hcond, if_pos rfl] at hse
  have hlow : (splitextExt f).map Char.toLower = '.' :: b.map Char.toLower := by
    rw [hse]
    simp [show Char.toLower '.' = '.' from by decide]
  refine ⟨b.map Char.toLower, hmem, ?_, ?_, rfl, digit_code_isDigit r1 r2 r3 r4⟩
  · simp [new_filename, hlow]
  · have hc1 : (strftimeStamp day mon yr hh mm ss).count '.' = 0 :=
      List.count_eq_zero.mpr (dot_not_mem_stamp day mon yr hh mm ss)
    have hc2 : (generate_random_code r1 r2 r3 r4).count '.' = 0 :=
      List.count_eq_zero.mpr (dot_not_mem_code r1 r2 r3 r4)
    have hc3 : (b.map Char.toLower).count '.' = 0 :=
      List.count_eq_zero.mpr (dot_not_mem_of_allowed b hmem)
    rw [new_filename, hlow]
    simp [List.count_append, List.count_cons, hc1, hc2, hc3]

/-- Witness for the amended C8 on the spec's own example `photo.JPG`
(staged, with the sample timestamp and code, as
`05_03_24_10_15_42_7391.jpg`). -/
theorem allocated_name_single_allowed_extension_witness :
    (allowed_file "photo.JPG" = true ∧ splitextExt "photo.JPG" ≠ []) ∧
    (∃ ext, ext ∈ ALLOWED_EXTENSIONS ∧
      new_filename (strftimeStamp 5 3 24 10 15 42) (generate_random_code 7 3 9 1) "photo.JPG" =
        strftimeStamp 5 3 24 10 15 42 ++ '_' ::
          (generate_random_code 7 3 9 1 ++ '.' :: ext) ∧
      (new_filename (strftimeStamp 5 3 24 10 15 42)
        (generate_random_code 7 3 9 1) "photo.JPG").count '.' = 1 ∧
      (generate_random_code 7 3 9 1).length = 4 ∧
      (∀ c ∈ generate_random_code 7 3 9 1, c.isDigit = true)) :=
  ⟨⟨by decide, by decide⟩,
    allocated_name_single_allowed_extension 5 3 24 10 15 42 7 3 9 1 "photo.JPG"
      (by decide) (by decide)⟩

/-! ## The batch-upload endpoint (src/app.py lines 297–352,
src/app/index.py lines 160–213; both bodies compute the same response) -/

/-- One uploaded file as `/api/batch-upload` sees it: the client-supplied
filename and whether `resize_and_save_image` succeeds on its bytes
(werkzeug's `FileStorage.__bool__` is `bool(self.filename)`). -/
structure FileInput where
  filename : String
  processOk : Bool

/-- The per-file `status` recorded in `results`: "success" when the file
is truthy, its extension allow-listed, and processing returns a name;
"error" otherwise. -/
def fileResult (f : FileInput) : String :=
  if (f.filename != "") && allowed_file f.filename then
    (if f.processOk then "success" else "error")
  else "error"

/-- Response of `/api/batch-upload` as (HTTP status code, JSON `status`
field): the no-files/empty-filenames guard, then the all-errors guard,
then `status_code = 200 if any(success) else 400` with `status` set to
"success" for 200 and "partial_success" otherwise. -/
def batch_upload_images (files : List FileInput) : Nat × String :=
  if files.isEmpty || files.all (fun f => f.filename == "") then
    (400, "error")
  else
    let results := files.map fileResult
    if results.all (fun r => r == "error") then
      (400, "error")
    else
      let statusCode := if results.any (fun r => r == "success") then 200 else 400
      (statusCode, if statusCode == 200 then "success" else "partial_success")

theorem fileResult_success_or_error (f : FileInput) :
    fileResult f = "success" ∨ fileResult f = "error" := by
  unfold fileResult
  split
  · split
    · exact Or.inl rfl
    · exact Or.inr rfl
  · exact Or.inr rfl

theorem any_success_of_not_all_error (files : List FileInput)
    (h : ((files.map fileResult).all (fun r => r == "error")) = false) :
    ((files.map fileResult).any (fun r => r == "success")) = true := by
  rw [List.all_eq_false] at h
  obtain ⟨r, hr, hne⟩ := h
  obtain ⟨f, hf, rfl⟩ := List.mem_map.mp hr
  rcases fileResult_success_or_error f with hs | hs
  · exact List.any_eq_true.mpr ⟨fileResult f, hr, by simp [hs]⟩
  · rw [hs] at hne
    simp at hne

/-- C10: the 400/"partial_success" branch of the batch-upload endpoint is
unreachable: no input produces a response with status "partial_success",
and whenever the two error guards do not fire the response is exactly
HTTP 200 with status "success" (every non-"error" per-file result is
"success", so `any(success)` holds as soon as `all(error)` fails). -/
theorem batch_upload_second_branch_unreachable :
    (∀ files : List FileInput, (batch_upload_images files).2 ≠ "partial_success") ∧
    (∀ files : List FileInput,
      (files.isEmpty || files.all (fun f => f.filename == "")) = false →
      ((files.map fileResult).all (fun r => r == "error")) = false →
      batch_upload_images files = (200, "success")) := by
  have hmain : ∀ files : List FileInput,
      (files.isEmpty || files.all (fun f => f.filename == "")) = false →
      ((files.map fileResult).all (fun r => r == "error")) = false →
      batch_upload_images files = (200, "success") := by
    intro files hg hall
    have hany := any_success_of_not_all_error files hall
    simp [batch_upload_images, hg, hall, hany]
  refine ⟨?_, hmain⟩
  intro files
  by_cases hg : (files.isEmpty || files.all (fun f => f.filename == "")) = true
  · simp [batch_upload_images, hg]
  · rw [Bool.not_eq_true] at hg
    by_cases hall : ((files.map fileResult).all (fun r => r == "error")) = true
    · simp [batch_upload_images, hg, hall]
    · rw [Bool.not_eq_true] at hall
      rw [hmain files hg hall]
      simp

/-- A single valid upload. -/
def goodUpload : FileInput := ⟨"photo.JPG", true⟩

/-- Witness for C10 at a one-file batch containing a valid upload. -/
theorem batch_upload_second_branch_unreachable_witness :
    (([goodUpload] : List FileInput).isEmpty ||
      [goodUpload].all (fun f => f.filename == "")) = false ∧
    (([goodUpload].map fileResult).all (fun r => r == "error")) = false ∧
    batch_upload_images [goodUpload] = (200, "success") :=
  ⟨by decide, by decide,
    batch_upload_second_branch_unreachable.2 [goodUpload] (by decide) (by decide)⟩
